import Mathlib

/-!
Shallow embedding of the installSynApps configuration engine:
`scripts/read_install_config.py` (legacy path-macro expansion),
`installSynApps/IO/config_parser.py` (manifest / injector-file / macro-file
parsing) and `installSynApps/IO/config_injector.py` (file injection and the
macro updater).

Python strings are modelled as Lean `String`; the Python string operations
used by the code (`in`, `split`, `strip`, `startswith`, `re.sub(' +', ' ')`,
tab replacement, whitespace `split()`) are re-implemented below by structural
recursion on the underlying character list, so that all definitions evaluate
inside the kernel.  Lines of a text file are modelled without their trailing
newline character; where the Python code tests `len(line) > 1` on a raw line
that still carries its newline, the embedding tests that the line is nonempty.
-/

/- ---------------------------------------------------------------------- -/
/- Python string primitives on character lists                             -/
/- ---------------------------------------------------------------------- -/

/-- Prefix test on character lists (Python `str.startswith`). -/
def isPrefixOfCL : List Char → List Char → Bool
  | [], _ => true
  | _ :: _, [] => false
  | a :: as, b :: bs => a == b && isPrefixOfCL as bs

/-- Substring test (Python `needle in haystack`). -/
def containsSub (needle : List Char) : List Char → Bool
  | [] => isPrefixOfCL needle []
  | c :: rest => isPrefixOfCL needle (c :: rest) || containsSub needle rest

/-- Split on a separator character, keeping empty chunks
(Python `str.split(sep)`). -/
def splitOnChar (sep : Char) : List Char → List (List Char)
  | [] => [[]]
  | c :: rest =>
    match splitOnChar sep rest with
    | [] => [[]]
    | h :: t => if c == sep then [] :: h :: t else (c :: h) :: t

/-- Auxiliary split on whitespace characters, keeping empty chunks. -/
def splitWSAux : List Char → List (List Char)
  | [] => [[]]
  | c :: rest =>
    match splitWSAux rest with
    | [] => [[]]
    | h :: t => if c.isWhitespace then [] :: h :: t else (c :: h) :: t

/-- `str.strip()` from the left only. -/
def stripLeftCL (l : List Char) : List Char := l.dropWhile Char.isWhitespace

/-- Python `str.strip()`: remove whitespace from both ends. -/
def pyStripCL (l : List Char) : List Char :=
  (stripLeftCL (stripLeftCL l).reverse).reverse

/-- Python `'\t'` replacement, `re.sub('\t', ' ', line)`. -/
def replaceTabs (l : List Char) : List Char :=
  l.map (fun c => if c == '\t' then ' ' else c)

/-- Python `re.sub(' +', ' ', line)`: collapse runs of spaces. -/
def collapseSpaces : List Char → List Char
  | [] => []
  | [c] => [c]
  | c1 :: c2 :: rest =>
    if c1 == ' ' && c2 == ' ' then collapseSpaces (c2 :: rest)
    else c1 :: collapseSpaces (c2 :: rest)

/- String-level wrappers. -/

/-- Python `pre in s` would be `containsSub`; this is `s.startswith(pre)`. -/
def pyStartsWith (pre s : String) : Bool := isPrefixOfCL pre.data s.data

/-- Python `needle in haystack` on strings. -/
def pyIn (needle haystack : String) : Bool := containsSub needle.data haystack.data

/-- Python `s.split(sep)` on strings. -/
def pySplit (sep : Char) (s : String) : List String :=
  (splitOnChar sep s.data).map String.mk

/-- Python `s.strip()` on strings. -/
def pyStripS (s : String) : String := String.mk (pyStripCL s.data)

/-- Python `s.split()` (no argument): split on whitespace runs, drop empties. -/
def pySplitWhite (s : String) : List String :=
  ((splitWSAux s.data).filter (fun w => !w.isEmpty)).map String.mk

/- ---------------------------------------------------------------------- -/
/- scripts/read_install_config.py : expand_module_path                     -/
/- ---------------------------------------------------------------------- -/

/-- A module as represented in `scripts/read_install_config.py`: a Python
list whose index 0 is the name and index 2 the (already expanded) path.
Only those two indices are read by `expand_module_path`. -/
structure ScriptModule where
  name : String
  version : String
  path : String
deriving DecidableEq

/-- First module in the list with the given name (the `for module in
current_modules` loop returning on the first match). -/
def lookupFirst (nm : String) : List ScriptModule → Option ScriptModule
  | [] => none
  | m :: ms => if m.name = nm then some m else lookupFirst nm ms

/-- Python `path.split(')')[1]`: the text between the first `)` and the
second `)` (or the end).  The call sites guard on a macro being present, so
at least one `)` exists and index 1 is in range. -/
def tailAfterParen (path : String) : String := (pySplit ')' path).getD 1 ""

/-- Embeds `expand_module_path` of `scripts/read_install_config.py`.
The Python function has no `return` on the paths where the `$(SUPPORT)` /
`$(AREA_DETECTOR)` search loop finds no module, so it implicitly returns
`None`; that is modelled as `none`. -/
def expand_module_path (path : String) (current_modules : List ScriptModule)
    (install_dir : String) : Option String :=
  if pyIn "$(INSTALL)" path then
    some (install_dir ++ tailAfterParen path)
  else if pyIn "$(SUPPORT)" path then
    (lookupFirst "SUPPORT" current_modules).map (fun m => m.path ++ tailAfterParen path)
  else if pyIn "$(AREA_DETECTOR)" path then
    (lookupFirst "AREA_DETECTOR" current_modules).map (fun m => m.path ++ tailAfterParen path)
  else
    some path

/- ---------------------------------------------------------------------- -/
/- installSynApps/IO/config_injector.py : update_macros                    -/
/- ---------------------------------------------------------------------- -/

/-- A macro entry of `update_macros`' `macro_replace_list`: a Python list
whose index 0 is the key and index 1 the value.  The code treats an entry as
still usable while `len(macro) < 3` and consumes it by appending `"DONE"`;
`done` models `len(macro) >= 3`. -/
structure MacroPair where
  key : String
  value : String
  done : Bool
deriving DecidableEq

/-- The substitution line `"{}={}".format(macro[0], macro[1])` (without the
trailing newline). -/
def macroLine (m : MacroPair) : String := m.key ++ "=" ++ m.value

/-- The per-line match test `(macro[0] + "=") in line and len(macro) < 3`. -/
def matchesNow (l : String) (m : MacroPair) : Bool :=
  !m.done && pyIn (m.key ++ "=") l

/-- The in-place mutation `macro.append("DONE")` guarded by the match test. -/
def markIfMatches (l : String) (m : MacroPair) : MacroPair :=
  if matchesNow l m then { m with done := true } else m

/-- The inner `for macro in macro_replace_list` loop of `update_macros` on
one (already stripped) line: returns the substitution lines written, the
updated macro list, and `wrote_line`. -/
def scanLine (l : String) : List MacroPair → List String × List MacroPair × Bool
  | [] => ([], [], false)
  | m :: ms =>
    if matchesNow l m then
      (macroLine m :: (scanLine l ms).1,
       { m with done := true } :: (scanLine l ms).2.1, true)
    else
      ((scanLine l ms).1, m :: (scanLine l ms).2.1, (scanLine l ms).2.2)

/-- One iteration of the `while line` loop of `update_macros`: strip the
line, run the macro scan, and otherwise comment the line out (non-comment)
or keep it (comment).  Returns the lines written and the macro list after
the iteration. -/
def processLine (raw : String) (ms : List MacroPair) : List String × List MacroPair :=
  if (scanLine (pyStripS raw) ms).2.2 then
    ((scanLine (pyStripS raw) ms).1, (scanLine (pyStripS raw) ms).2.1)
  else if pyStartsWith "#" (pyStripS raw) = false then
    (("#" ++ pyStripS raw) :: (scanLine (pyStripS raw) ms).1,
     (scanLine (pyStripS raw) ms).2.1)
  else
    (pyStripS raw :: (scanLine (pyStripS raw) ms).1,
     (scanLine (pyStripS raw) ms).2.1)

/-- The full `while line` loop over a file's lines. -/
def processLines : List String → List MacroPair → List String × List MacroPair
  | [], ms => ([], ms)
  | l :: rest, ms =>
    ((processLine l ms).1 ++ (processLines rest (processLine l ms).2).1,
     (processLines rest (processLine l ms).2).2)

/-- Rewriting one eligible file in `update_macros`: the per-line pass
followed by the trailing `for macro in macro_replace_list` append loop for
entries with `len(macro) < 3`.  Returns the new file's lines and the macro
list after the file. -/
def updateFile (lines : List String) (ms : List MacroPair) : List String × List MacroPair :=
  ((processLines lines ms).1
     ++ (((processLines lines ms).2).filter (fun m => !m.done)).map macroLine,
   (processLines lines ms).2)

/-- `update_macros` over the sequence of eligible files of the target
directory (each file given as its list of lines), threading the single
shared `macro_replace_list` through all of them, as the Python code mutates
one shared list object. -/
def update_macros : List (List String) → List MacroPair →
    List (List String) × List MacroPair
  | [], ms => ([], ms)
  | f :: rest, ms =>
    ((updateFile f ms).1 :: (update_macros rest (updateFile f ms).2).1,
     (update_macros rest (updateFile f ms).2).2)

/- Claim-level description of the rewrite (used to settle C7). -/

/-- The lines the claim predicts for one stripped original line: one
`key=value` line for every not-yet-consumed pair whose `key=` occurs in the
line; otherwise `#`-prefix a non-comment line, keep a comment line. -/
def claimLineOut (l : String) (ms : List MacroPair) : List String :=
  if ms.any (matchesNow l) then (ms.filter (matchesNow l)).map macroLine
  else if pyStartsWith "#" l = false then ["#" ++ l]
  else [l]

/-- The macro state the claim predicts after one stripped line: every
matching not-yet-consumed pair becomes consumed. -/
def claimLineState (l : String) (ms : List MacroPair) : List MacroPair :=
  ms.map (markIfMatches l)

/-- The claim's per-line pass over a whole file. -/
def claimRewriteLines : List String → List MacroPair → List String × List MacroPair
  | [], ms => ([], ms)
  | l :: rest, ms =>
    (claimLineOut (pyStripS l) ms
       ++ (claimRewriteLines rest (claimLineState (pyStripS l) ms)).1,
     (claimRewriteLines rest (claimLineState (pyStripS l) ms)).2)

/-- The claim's description of the whole rewritten file: the per-line pass,
then one appended `key=value` line for every pair left unconsumed. -/
def claimRewriteFile (lines : List String) (ms : List MacroPair) :
    List String × List MacroPair :=
  ((claimRewriteLines lines ms).1
     ++ ((claimRewriteLines lines ms).2.filter (fun m => !m.done)).map macroLine,
   (claimRewriteLines lines ms).2)

/-- Cumulative consumption marking of one macro entry by a file's lines. -/
def markLines (lines : List String) (m : MacroPair) : MacroPair :=
  lines.foldl (fun acc l => markIfMatches (pyStripS l) acc) m

/-- Cumulative consumption marking of one macro entry by a list of files. -/
def markFiles (files : List (List String)) (m : MacroPair) : MacroPair :=
  files.foldl (fun acc f => markLines f acc) m

/- ---------------------------------------------------------------------- -/
/- installSynApps/IO/config_injector.py : injector files                   -/
/- ---------------------------------------------------------------------- -/

/-- The `injector_file_links` dictionary of `ConfigInjector.__init__`,
as a partial lookup: `none` models a `KeyError` on `[file]`. -/
def injector_file_links (f : String) : Option String :=
  if f = "AD_RELEASE_CONFIG" then some "$(AREA_DETECTOR)/configure/RELEASE_PRODS.local"
  else if f = "AUTOSAVE_CONFIG" then some "$(AREA_DETECTOR)/ADCore/iocBoot/commonPlugin_settings.req"
  else if f = "MAKEFILE_CONFIG" then some "$(AREA_DETECTOR)/ADCore/ADApp/commonDriverMakefile"
  else if f = "PLUGIN_CONFIG" then some "$(AREA_DETECTOR)/ADCore/iocBoot/commonPlugins.cmd"
  else none

/-- Embeds `ConfigInjector.get_injector_files`, given the names of the
regular files found (in order) in `configure/injectionFiles`.  The Python
loop evaluates `self.injector_file_links[file]`, so the first file whose
name is not a dictionary key raises `KeyError`, modelled as `.error` with
the offending name. -/
def get_injector_files (path_to_configure : String) (files : List String) :
    Except String (List String) :=
  match files with
  | [] => .ok []
  | f :: rest =>
    match injector_file_links f with
    | none => .error f
    | some _ =>
      match get_injector_files path_to_configure rest with
      | .ok l => .ok ((path_to_configure ++ "/injectionFiles/" ++ f) :: l)
      | .error e => .error e

/- ---------------------------------------------------------------------- -/
/- installSynApps/IO/config_injector.py : inject_to_file                   -/
/- ---------------------------------------------------------------------- -/

/-- A local filesystem fragment: regular files (path to contents) and the
set of existing directories. -/
structure FileSys where
  files : List (String × String)
  dirs : List String
deriving DecidableEq

/-- Contents of a file, if present. -/
def fsLookup : List (String × String) → String → Option String
  | [], _ => none
  | (p, c) :: rest, q => if p = q then some c else fsLookup rest q

/-- Store contents at a path (overwriting, or creating the entry). -/
def fsWrite : List (String × String) → String → String → List (String × String)
  | [], p, c => [(p, c)]
  | (q, d) :: rest, p, c =>
    if q = p then (q, c) :: rest else (q, d) :: fsWrite rest p c

/-- Directory part of a path: everything before the last `/`. -/
def parentDir (p : String) : String :=
  String.mk (((p.data.reverse.dropWhile (fun c => !(c == '/'))).drop 1).reverse)

/-- The start marker comment line written by `inject_to_file`. -/
def injStartMarker : String :=
  "# ------------The following was auto-generated by installSynApps-------"

/-- The end marker comment line written by `inject_to_file`. -/
def injEndMarker : String :=
  "# --------------------------Auto-generated end----------------------"

/-- Embeds `ConfigInjector.inject_to_file` after target-path resolution,
against the filesystem model: `open(target_path, "a")` succeeds when the
file already exists or its parent directory exists (creating the file in
the latter case), and raises `FileNotFoundError` (modelled `none`) when the
parent directory is missing; the non-comment, nonempty lines of the
injector fragment are appended between the two marker lines. -/
def inject_to_file (fs : FileSys) (target : String) (fragLines : List String) :
    Option FileSys :=
  if (fsLookup fs.files target).isSome || fs.dirs.contains (parentDir target) then
    some { fs with
      files := fsWrite fs.files target
        ((fsLookup fs.files target).getD "" ++ injStartMarker ++ "\n"
          ++ String.join
              ((fragLines.filter (fun l => !pyStartsWith "#" l && !l.isEmpty)).map
                (fun l => l ++ "\n"))
          ++ injEndMarker ++ "\n") }
  else none

/- ---------------------------------------------------------------------- -/
/- DataModel: InstallConfiguration (modelled from the spec)                -/
/- ---------------------------------------------------------------------- -/

/-- An `InstallModule` as built by `ConfigParser.parse_line_to_module`:
`IM.InstallModule(name, version, rel_path, current_url_type, current_url,
repository, clone, build)`. -/
structure InstallModule where
  name : String
  version : String
  rel_path : String
  url_type : String
  url : String
  repository : String
  clone : String
  build : String
deriving DecidableEq

/-- A module stored in the registry together with its macro-resolved
absolute path (spec: derived `absolute_path`, computed at add-time). -/
structure ResolvedModule where
  mod : InstallModule
  abs_path : String
deriving DecidableEq

/-- Modelled from the spec: `DataModel/install_config.py`
(`InstallConfiguration`) is not under `src/`; this follows spec sections 3
and 4.1 step 7 — the resolved registry with install root, modules in
insertion order, the well-known derived paths, and the attached
injector-file and macro-file contents. -/
structure InstallConfiguration where
  install_location : String
  modules : List ResolvedModule
  base_path : Option String
  support_path : Option String
  ad_path : Option String
  injector_files : List (String × String × String)
  macros : List (List String)
deriving DecidableEq

/-- A fresh configuration for an install root (spec section 3 lifecycle:
created when the `INSTALL=` directive line is parsed). -/
def initConfig (loc : String) : InstallConfiguration :=
  ⟨loc, [], none, none, none, [], []⟩

/-- Modelled from the spec, section 4.2 (path macro resolution): `$(INSTALL)`
resolves to the install root plus the remainder after the closing paren;
`$(<MODULE_NAME>)` naming an already-added module resolves to that module's
resolved absolute path plus the remainder; otherwise the path is left
unchanged (literal). -/
def resolvePath (raw : String) (mods : List ResolvedModule) (root : String) : String :=
  if pyIn "$(INSTALL)" raw then root ++ tailAfterParen raw
  else
    match mods.find? (fun rm => pyIn ("$(" ++ rm.mod.name ++ ")") raw) with
    | some rm => rm.abs_path ++ tailAfterParen raw
    | none => raw

/-- Modelled from the spec: `InstallConfiguration.add_module` — resolve the
module's relative path against the already-added modules at add-time
(spec section 4.1 step 6), append it to the registry, and set the
well-known path when the module is named `EPICS_BASE`, `SUPPORT` or
`AREA_DETECTOR` (spec section 3). -/
def add_module (c : InstallConfiguration) (m : InstallModule) : InstallConfiguration :=
  let ap := resolvePath m.rel_path c.modules c.install_location
  let c1 := { c with modules := c.modules ++ [⟨m, ap⟩] }
  if m.name = "EPICS_BASE" then { c1 with base_path := some ap }
  else if m.name = "SUPPORT" then { c1 with support_path := some ap }
  else if m.name = "AREA_DETECTOR" then { c1 with ad_path := some ap }
  else c1

/- ---------------------------------------------------------------------- -/
/- installSynApps/IO/config_parser.py                                      -/
/- ---------------------------------------------------------------------- -/

/-- Embeds `ConfigParser.parse_line_to_module`: replace tabs by spaces,
collapse space runs, split on single spaces, and read the six positional
fields.  A row with fewer than six fields makes the Python code raise an
uncaught `IndexError` on `module_components[i]`, modelled as `none`;
surplus fields are ignored, as in the code. -/
def parse_line_to_module (line current_url current_url_type : String) :
    Option InstallModule :=
  let comps := (splitOnChar ' ' (collapseSpaces (replaceTabs line.data))).map String.mk
  match comps with
  | name :: version :: rel :: repo :: clone :: build :: _ =>
    some ⟨name, version, rel, current_url_type, current_url, repo, clone, build⟩
  | _ => none

/-- Embeds `ConfigParser.parse_injector_file`'s line loop: non-comment,
nonempty lines either set the target link (`__TARGET_LOC__=` lines, taking
`split('=')[1]` of the stripped line) or are appended to the contents
(with their newline).  Returns `(contents, link)`. -/
def parse_injector_file (lines : List String) : String × String :=
  lines.foldl (fun acc line =>
    if pyStartsWith "#" line = false ∧ line ≠ "" then
      if pyStartsWith "__TARGET_LOC__=" line then
        (acc.1, (pySplit '=' (pyStripS line)).getD 1 "")
      else (acc.1 ++ line ++ "\n", acc.2)
    else acc) ("", "")

/-- Embeds `ConfigParser.parse_macro_file`: split the whole file content on
whitespace; every token not starting with `#`, of length greater than one,
and containing `=` is split on every `=` (Python `line.split('=')`) and
appended. -/
def parse_macro_file (content : String) : List (List String) :=
  ((pySplitWhite content).filter
    (fun t => !pyStartsWith "#" t && decide (1 < t.length) && pyIn "=" t)).map
    (pySplit '=')

/-- Validity of the install location, modelled from the spec (section 4.1
step 3); `DataModel/install_config.py`'s `is_install_valid` is not under
`src/`.  `writable` models a positive return, `notWritable` a negative one,
and the two `missing` cases model a zero return whose subsequent `os.mkdir`
succeeds or raises `FileNotFoundError`. -/
inductive InstallValidity where
  | writable
  | notWritable
  | missingCreatable
  | missingNotCreatable
deriving DecidableEq

/-- Outcome of `ConfigParser.parse_install_config`: a normal return of the
`(install_config, message)` pair (the configuration may be Python `None`),
or one of the uncaught exceptions the code can raise — `IndexError` from a
short module row or a URL directive without `=`, `AttributeError` from
`install_config.add_module` when no `INSTALL=` line has been seen. -/
inductive PResult where
  | done (cfg : Option InstallConfiguration) (msg : String)
  | indexError
  | attributeError
deriving DecidableEq

/-- Environment of one `parse_install_config` run: the validity of install
locations on the filesystem, and the `force_location` / `allow_illegal`
arguments. -/
structure ParseCtx where
  validity : String → InstallValidity
  allow_illegal : Bool
  force_location : Option String

/-- Running state of the manifest line loop. -/
structure ParseState where
  cfg : Option InstallConfiguration
  current_url : String
  current_url_type : String
  message : String

/-- One iteration of the `while line` loop of
`ConfigParser.parse_install_config` (config_parser.py lines 110-139):
strip the line; skip it unless it neither starts with `#` nor has length
at most one; otherwise dispatch on `INSTALL=`, `GIT_URL`/`WGET_URL`, or a
module row.  Early `return` statements and uncaught exceptions are carried
as `.error`. -/
def installLoc (ctx : ParseCtx) (line : String) : String :=
  match ctx.force_location with
  | none => ((pySplit '=' line).getLast?).getD ""
  | some f => f

def parseStep (ctx : ParseCtx) (s : Except PResult ParseState) (raw : String) :
    Except PResult ParseState :=
  match s with
  | .error r => .error r
  | .ok st =>
    if pyStartsWith "#" (pyStripS raw) = false ∧ 1 < (pyStripS raw).length then
      if pyStartsWith "INSTALL=" (pyStripS raw) then
        match ctx.validity (installLoc ctx (pyStripS raw)) with
        | .notWritable =>
          if ctx.allow_illegal then
            .ok { st with cfg := some (initConfig (installLoc ctx (pyStripS raw))),
                          message := "Permission Error" }
          else .error (.done none "Permission Error")
        | .missingNotCreatable =>
          if ctx.allow_illegal then
            .ok { st with cfg := some (initConfig (installLoc ctx (pyStripS raw))),
                          message := "Install filepath not valid" }
          else .error (.done none "Install filepath not valid")
        | _ => .ok { st with cfg := some (initConfig (installLoc ctx (pyStripS raw))) }
      else if pyStartsWith "GIT_URL" (pyStripS raw) || pyStartsWith "WGET_URL" (pyStripS raw) then
        match (pySplit '=' (pyStripS raw)).get? 1 with
        | none => .error .indexError
        | some u => .ok { st with current_url := u,
                                  current_url_type := (pySplit '=' (pyStripS raw)).getD 0 "" }
      else
        match parse_line_to_module (pyStripS raw) st.current_url st.current_url_type with
        | none => .error .indexError
        | some m =>
          match st.cfg with
          | none => .error .attributeError
          | some c => .ok { st with cfg := some (add_module c m) }
    else .ok st

/-- `ConfigParser.read_injector_files`: parse every file found under
`configure/injectionFiles` (given as name and lines) and attach it to the
configuration; a `None` configuration is returned unchanged (early return
in the code).  `add_injector_file` is modelled from the spec as appending
the `(name, contents, target link)` triple. -/
def applyInjectorFiles (cfg : Option InstallConfiguration)
    (injFiles : List (String × List String)) : Option InstallConfiguration :=
  match cfg with
  | none => none
  | some c =>
    some (injFiles.foldl (fun c f =>
      { c with injector_files :=
          c.injector_files ++ [(f.1, parse_injector_file f.2)] }) c)

/-- `ConfigParser.read_build_flags`: parse every macro file found under
`configure/macroFiles` (given as its content) and attach the resulting
pairs; `add_macros` is modelled from the spec as appending them. -/
def applyMacroFiles (cfg : Option InstallConfiguration)
    (macFiles : List String) : Option InstallConfiguration :=
  match cfg with
  | none => none
  | some c =>
    some (macFiles.foldl (fun c mf =>
      { c with macros := c.macros ++ parse_macro_file mf }) c)

/-- Embeds `ConfigParser.parse_install_config` on an existing manifest file
given as its list of lines, together with the injector files and macro
files found in the configure directory: run the line loop, then attach
injector files and macro files, and return the `(config, message)` pair —
or the uncaught exception. -/
def parse_install_config (lines : List String) (ctx : ParseCtx)
    (injFiles : List (String × List String)) (macFiles : List String) : PResult :=
  match lines.foldl (parseStep ctx) (.ok ⟨none, "", "", ""⟩) with
  | .error r => r
  | .ok st =>
    .done (applyMacroFiles (applyInjectorFiles st.cfg injFiles) macFiles) st.message

/-- The module names held by a normally returned configuration. -/
def presultModuleNames : PResult → Option (List String)
  | .done (some c) _ => some (c.modules.map (fun rm => rm.mod.name))
  | _ => none

/-- The status message of a normal return. -/
def presultMsg : PResult → Option String
  | .done _ m => some m
  | _ => none

/-- Whether the outcome is a tagged failure: the code's tagged failures are
the early `return None, <message>` paths, which return a `None`
configuration together with a human-readable message.  The uncaught
`IndexError` / `AttributeError` crashes are not tagged. -/
def isTaggedFailure : PResult → Bool
  | .done none _ => true
  | _ => false

/- ---------------------------------------------------------------------- -/
/- Concrete inputs used by the claim theorems                              -/
/- ---------------------------------------------------------------------- -/

/-- A parse environment whose install locations are all valid and writable,
with default arguments (`force_location=None`, `allow_illegal=False`). -/
def ctxW : ParseCtx := ⟨fun _ => .writable, false, none⟩

/-- The well-formed manifest of claim C3: one `INSTALL=`, one `GIT_URL=`,
three module rows. -/
def manifest3 : List String :=
  ["INSTALL=/epics/test",
   "GIT_URL=https://github.com/epics-modules/",
   "MOD_A R1-0 $(INSTALL)/modA modA YES YES",
   "MOD_B R2-0 $(INSTALL)/modB modB YES YES",
   "MOD_C R3-0 $(INSTALL)/modC modC YES NO"]

/-- The manifest of claim C4's counterexample: its module row has only five
fields. -/
def manifestShortRow : List String :=
  ["INSTALL=/epics/test",
   "GIT_URL=https://github.com/epics-modules/",
   "MOD_A R1-0 $(INSTALL)/modA modA YES"]

/-- The `SUPPORT` module of the unit test `test_add_support_ad`. -/
def supportModC1 : InstallModule :=
  ⟨"SUPPORT", "R6-0", "$(INSTALL)/support", "GIT_URL",
   "https://github.com/dummyurl/test/", "support", "YES", "YES"⟩

/-- The `AREA_DETECTOR` module of the unit test `test_add_support_ad`. -/
def adModC1 : InstallModule :=
  ⟨"AREA_DETECTOR", "R3-6", "$(SUPPORT)/areaDetector", "GIT_URL",
   "https://github.com/dummyurl/test/", "ad", "YES", "YES"⟩

/-- A filesystem with an existing directory `/epics/cfg` and no files. -/
def fsC2 : FileSys := ⟨[], ["/epics/cfg"]⟩

/- ---------------------------------------------------------------------- -/
/- Claim-level description of the macro-file sub-parse (for C6)            -/
/- ---------------------------------------------------------------------- -/

/-- Split a character list at the first `=` only (Python `split('=', 1)`);
if no `=` occurs, the second component is empty. -/
def splitFirstEqCL : List Char → List Char × List Char
  | [] => ([], [])
  | c :: rest =>
    if c == '=' then ([], rest)
    else ((splitFirstEqCL rest).1.cons c, (splitFirstEqCL rest).2)

/-- The `(key, value)` pair the claim predicts for one token: split on the
first `=` only, the value keeping any further `=` characters. -/
def splitFirstEq (t : String) : List String :=
  [String.mk (splitFirstEqCL t.data).1, String.mk (splitFirstEqCL t.data).2]

/-- The claim's description of the macro-file sub-parse: every
whitespace-separated token containing `=` and not starting with `#` becomes
exactly one pair, split on the first `=` only. -/
def claimMacroPairs (content : String) : List (List String) :=
  ((pySplitWhite content).filter
    (fun t => !pyStartsWith "#" t && pyIn "=" t)).map splitFirstEq

/- ---------------------------------------------------------------------- -/
/- Lemmas about the macro updater                                          -/
/- ---------------------------------------------------------------------- -/

theorem filterNilOfAnyFalse {α : Type} (p : α → Bool) (l : List α)
    (h : l.any p = false) : l.filter p = [] := by
  induction l with
  | nil => rfl
  | cons a l ih =>
    simp only [List.any_cons, Bool.or_eq_false_iff] at h
    simp [List.filter_cons, h.1, ih h.2]

/-- The mutating inner macro scan, described by `filter` / `map` / `any`:
the substitution lines written are those of the matching not-yet-consumed
pairs, each matching pair becomes consumed, and `wrote_line` is whether any
pair matched. -/
theorem scanLine_eq (l : String) (ms : List MacroPair) :
    scanLine l ms = ((ms.filter (matchesNow l)).map macroLine,
      ms.map (markIfMatches l), ms.any (matchesNow l)) := by
  induction ms with
  | nil => rfl
  | cons m ms ih =>
    by_cases hm : matchesNow l m
    · simp [scanLine, ih, hm, List.filter_cons, List.any_cons, markIfMatches]
    · simp [scanLine, ih, hm, List.filter_cons, List.any_cons, markIfMatches]

theorem processLine_eq (raw : String) (ms : List MacroPair) :
    processLine raw ms
      = (claimLineOut (pyStripS raw) ms, claimLineState (pyStripS raw) ms) := by
  unfold processLine claimLineOut claimLineState
  rw [scanLine_eq]
  by_cases h : ms.any (matchesNow (pyStripS raw)) = true
  · simp [h]
  · have hf := filterNilOfAnyFalse (matchesNow (pyStripS raw)) ms
      (by simpa using h)
    by_cases hs : pyStartsWith "#" (pyStripS raw) = false
    · simp [h, hf, hs]
    · simp [h, hf, hs]

theorem processLines_eq (lines : List String) :
    ∀ ms, processLines lines ms = claimRewriteLines lines ms := by
  induction lines with
  | nil => intro ms; rfl
  | cons l rest ih =>
    intro ms
    simp only [processLines, claimRewriteLines, processLine_eq, ih]

theorem matchesNow_done (l : String) (m : MacroPair) (h : m.done = true) :
    matchesNow l m = false := by
  simp [matchesNow, h]

theorem markIfMatches_done (l : String) (m : MacroPair) (h : m.done = true) :
    markIfMatches l m = m := by
  simp [markIfMatches, matchesNow_done l m h]

theorem markLines_done (lines : List String) (m : MacroPair) (h : m.done = true) :
    markLines lines m = m := by
  induction lines with
  | nil => rfl
  | cons l rest ih =>
    show markLines rest (markIfMatches (pyStripS l) m) = m
    rw [markIfMatches_done _ _ h]
    exact ih

theorem markFiles_done (files : List (List String)) (m : MacroPair)
    (h : m.done = true) : markFiles files m = m := by
  induction files with
  | nil => rfl
  | cons f rest ih =>
    show markFiles rest (markLines f m) = m
    rw [markLines_done _ _ h]
    exact ih

/-- The macro list after a file's per-line pass is the elementwise
consumption marking: pairs do not interact with each other. -/
theorem processLines_state (lines : List String) :
    ∀ ms, (processLines lines ms).2 = ms.map (markLines lines) := by
  induction lines with
  | nil =>
    intro ms
    show ms = ms.map (markLines [])
    have h0 : markLines [] = fun m => m := funext fun m => rfl
    rw [h0, List.map_id']
  | cons l rest ih =>
    intro ms
    show (processLines rest (processLine l ms).2).2 = ms.map (markLines (l :: rest))
    rw [processLine_eq, ih]
    show (claimLineState (pyStripS l) ms).map (markLines rest) = ms.map (markLines (l :: rest))
    unfold claimLineState
    rw [List.map_map]
    rfl

theorem update_macros_state (files : List (List String)) :
    ∀ ms, (update_macros files ms).2 = ms.map (markFiles files) := by
  induction files with
  | nil =>
    intro ms
    show ms = ms.map (markFiles [])
    have h0 : markFiles [] = fun m => m := funext fun m => rfl
    rw [h0, List.map_id']
  | cons f rest ih =>
    intro ms
    show (update_macros rest (updateFile f ms).2).2 = ms.map (markFiles (f :: rest))
    rw [ih]
    show ((processLines f ms).2).map (markFiles rest) = ms.map (markFiles (f :: rest))
    rw [processLines_state]
    rw [List.map_map]
    rfl

theorem claimLineOut_insert (l : String) (m : MacroPair) (hm : m.done = true)
    (a b : List MacroPair) :
    claimLineOut l (a ++ m :: b) = claimLineOut l (a ++ b) := by
  unfold claimLineOut
  rw [show (a ++ m :: b).any (matchesNow l) = (a ++ b).any (matchesNow l) from by
        simp [List.any_append, List.any_cons, matchesNow_done l m hm],
      show (a ++ m :: b).filter (matchesNow l) = (a ++ b).filter (matchesNow l) from by
        simp [List.filter_append, List.filter_cons, matchesNow_done l m hm]]

theorem claimLineState_insert (l : String) (m : MacroPair) (hm : m.done = true)
    (a b : List MacroPair) :
    claimLineState l (a ++ m :: b)
      = a.map (markIfMatches l) ++ m :: b.map (markIfMatches l) := by
  simp [claimLineState, markIfMatches_done l m hm]

/-- The lines a file's per-line pass writes are unchanged when a consumed
pair sits anywhere in the macro list: a consumed pair is never substituted
again. -/
theorem processLines_outs_skip (m : MacroPair) (hm : m.done = true)
    (lines : List String) :
    ∀ a b : List MacroPair,
      (processLines lines (a ++ m :: b)).1 = (processLines lines (a ++ b)).1 := by
  induction lines with
  | nil => intro a b; rfl
  | cons l rest ih =>
    intro a b
    show (processLine l (a ++ m :: b)).1
        ++ (processLines rest (processLine l (a ++ m :: b)).2).1
      = (processLine l (a ++ b)).1
        ++ (processLines rest (processLine l (a ++ b)).2).1
    rw [processLine_eq, processLine_eq]
    rw [claimLineOut_insert _ _ hm, claimLineState_insert _ _ hm]
    rw [show claimLineState (pyStripS l) (a ++ b)
          = a.map (markIfMatches (pyStripS l)) ++ b.map (markIfMatches (pyStripS l)) from by
        simp [claimLineState]]
    rw [ih]

/-- A whole rewritten file is unchanged when a consumed pair sits anywhere
in the macro list: it is neither substituted nor appended. -/
theorem updateFile_outs_skip (f : List String) (m : MacroPair)
    (hm : m.done = true) (a b : List MacroPair) :
    (updateFile f (a ++ m :: b)).1 = (updateFile f (a ++ b)).1 := by
  unfold updateFile
  rw [processLines_outs_skip m hm f a b, processLines_state, processLines_state]
  simp [List.filter_append, List.filter_cons, markLines_done f m hm, hm]

theorem update_macros_outs_skip (m : MacroPair) (hm : m.done = true)
    (files : List (List String)) :
    ∀ a b : List MacroPair,
      (update_macros files (a ++ m :: b)).1 = (update_macros files (a ++ b)).1 := by
  induction files with
  | nil => intro a b; rfl
  | cons f rest ih =>
    intro a b
    show (updateFile f (a ++ m :: b)).1 :: (update_macros rest (updateFile f (a ++ m :: b)).2).1
      = (updateFile f (a ++ b)).1 :: (update_macros rest (updateFile f (a ++ b)).2).1
    rw [updateFile_outs_skip f m hm a b]
    rw [show (updateFile f (a ++ m :: b)).2
          = a.map (markLines f) ++ m :: b.map (markLines f) from by
        show (processLines f (a ++ m :: b)).2 = _
        rw [processLines_state]
        simp [markLines_done f m hm]]
    rw [show (updateFile f (a ++ b)).2
          = a.map (markLines f) ++ b.map (markLines f) from by
        show (processLines f (a ++ b)).2 = _
        rw [processLines_state]
        simp]
    rw [ih]

/- ---------------------------------------------------------------------- -/
/- Lemmas about the manifest parser                                        -/
/- ---------------------------------------------------------------------- -/

/-- A module row with fewer than six whitespace-normalized fields makes
`parse_line_to_module` raise `IndexError` (return `none`). -/
theorem parse_row_short (line u t : String)
    (h : (splitOnChar ' ' (collapseSpaces (replaceTabs line.data))).length < 6) :
    parse_line_to_module line u t = none := by
  unfold parse_line_to_module
  generalize splitOnChar ' ' (collapseSpaces (replaceTabs line.data)) = L at h
  match L, h with
  | [], _ => rfl
  | [a], _ => rfl
  | [a, b], _ => rfl
  | [a, b, c], _ => rfl
  | [a, b, c, d], _ => rfl
  | [a, b, c, d, e], _ => rfl
  | a :: b :: c :: d :: e :: f :: rest, h => simp at h; omega

/-- The line loop skips a line whose stripped form has length at most one
or starts with `#`. -/
theorem parseStep_skip (ctx : ParseCtx) (s : Except PResult ParseState) (raw : String)
    (h : (pyStripS raw).length ≤ 1 ∨ pyStartsWith "#" (pyStripS raw) = true) :
    parseStep ctx s raw = s := by
  have hneg : ¬(pyStartsWith "#" (pyStripS raw) = false ∧ 1 < (pyStripS raw).length) := by
    rintro ⟨h1, h2⟩
    rcases h with h | h
    · omega
    · rw [h1] at h
      cases h
  match s with
  | .error r => rfl
  | .ok st => simp only [parseStep, if_neg hneg]

/- ---------------------------------------------------------------------- -/
/- Lemmas about splitting on '='                                           -/
/- ---------------------------------------------------------------------- -/

theorem splitOnChar_no_sep (l : List Char)
    (h : (l.filter (fun c => c == '=')).length = 0) :
    splitOnChar '=' l = [l] := by
  induction l with
  | nil => rfl
  | cons c rest ih =>
    by_cases hc : (c == '=') = true
    · simp [List.filter_cons, hc] at h
    · simp only [List.filter_cons, hc] at h
      simp only [if_false, Bool.false_eq_true, if_neg hc] at h
      simp only [splitOnChar, ih h]
      simp [hc]

theorem splitOnChar_one_sep (l : List Char)
    (h : (l.filter (fun c => c == '=')).length = 1) :
    splitOnChar '=' l = [(splitFirstEqCL l).1, (splitFirstEqCL l).2] := by
  induction l with
  | nil => simp at h
  | cons c rest ih =>
    by_cases hc : (c == '=') = true
    · simp only [List.filter_cons, if_pos hc, List.length_cons] at h
      have h0 : (List.filter (fun c => c == '=') rest).length = 0 := by omega
      simp only [splitOnChar, splitOnChar_no_sep rest h0]
      simp [splitFirstEqCL, hc]
    · simp only [List.filter_cons, if_neg hc] at h
      simp only [splitOnChar, ih h]
      simp [splitFirstEqCL, hc]

/- ---------------------------------------------------------------------- -/
/- Lemmas about the filesystem model and injector links                    -/
/- ---------------------------------------------------------------------- -/

theorem fsLookup_write (fsf : List (String × String)) (p c : String) :
    fsLookup (fsWrite fsf p c) p = some c := by
  induction fsf with
  | nil => simp [fsWrite, fsLookup]
  | cons e rest ih =>
    by_cases he : e.1 = p
    · simp [fsWrite, fsLookup, he]
    · simp [fsWrite, fsLookup, he, ih]

theorem links_none_iff (f : String) :
    injector_file_links f = none
      ↔ ¬(f = "AD_RELEASE_CONFIG" ∨ f = "AUTOSAVE_CONFIG"
          ∨ f = "MAKEFILE_CONFIG" ∨ f = "PLUGIN_CONFIG") := by
  unfold injector_file_links
  split_ifs with h1 h2 h3 h4 <;> simp_all

/-- Tokens whose qualifying entries contain exactly one `=` are parsed the
same way by the code's split-on-every-`=` and the claim's
split-on-first-`=`. -/
theorem macroTokens_eq (L : List String)
    (h : ∀ t ∈ L, pyStartsWith "#" t = false → pyIn "=" t = true →
        ((t.data.filter (fun c => c == '=')).length = 1 ∧ 1 < t.length)) :
    (L.filter (fun t => !pyStartsWith "#" t && decide (1 < t.length)
        && pyIn "=" t)).map (pySplit '=')
      = (L.filter (fun t => !pyStartsWith "#" t && pyIn "=" t)).map splitFirstEq := by
  induction L with
  | nil => rfl
  | cons t rest ih =>
    have hrest := ih (fun x hx => h x (List.mem_cons_of_mem t hx))
    by_cases h1 : pyStartsWith "#" t = true
    · simp [List.filter_cons, h1, hrest]
    · have h1f : pyStartsWith "#" t = false := by
        cases hps : pyStartsWith "#" t
        · rfl
        · exact absurd hps h1
      by_cases h2 : pyIn "=" t = true
      · obtain ⟨hcnt, hlen⟩ := h t (List.mem_cons_self t rest) h1f h2
        have heq : pySplit '=' t = splitFirstEq t := by
          unfold pySplit splitFirstEq
          rw [splitOnChar_one_sep t.data hcnt]
          rfl
        simp [List.filter_cons, h1f, h2, hlen, heq, hrest]
      · have h2f : pyIn "=" t = false := by
          cases hps : pyIn "=" t
          · rfl
          · exact absurd hps h2
        simp [List.filter_cons, h1f, h2f, hrest]

/- ---------------------------------------------------------------------- -/
/- Claim theorems                                                          -/
/- ---------------------------------------------------------------------- -/

/-- Claim C1: starting from an InstallConfiguration rooted at `/epics/test`,
adding a module named `SUPPORT` with relative path `$(INSTALL)/support` and
then a module named `AREA_DETECTOR` with relative path
`$(SUPPORT)/areaDetector` yields `support_path = /epics/test/support` and
`ad_path = /epics/test/support/areaDetector`: add-time macro resolution
chains through the already-added modules' resolved paths. -/
theorem add_module_chains_support_ad :
    (add_module (add_module (initConfig "/epics/test") supportModC1) adModC1).support_path
        = some "/epics/test/support"
    ∧ (add_module (add_module (initConfig "/epics/test") supportModC1) adModC1).ad_path
        = some "/epics/test/support/areaDetector"
    ∧ (add_module (add_module (initConfig "/epics/test") supportModC1) adModC1).modules.length
        = 2 := by
  refine ⟨rfl, rfl, rfl⟩

/-- Claim C2 counterexample: with directory `/epics/cfg` existing and no
file at `/epics/cfg/t`, injecting does not fail — append-mode `open`
creates the missing target file and the content is written there, contrary
to the claim that the operation fails with `TargetNotFound` and never
writes at the resolved path. -/
theorem inject_creates_missing_target_cex :
    fsLookup fsC2.files "/epics/cfg/t" = none
    ∧ inject_to_file fsC2 "/epics/cfg/t" ["x"] ≠ none
    ∧ fsLookup ((inject_to_file fsC2 "/epics/cfg/t" ["x"]).getD fsC2).files
        "/epics/cfg/t" ≠ none := by
  refine ⟨rfl, by decide, by decide⟩

/-- Claim C2 as amended: when the resolved target file does not exist, the
inject operation fails (with an uncaught `FileNotFoundError`, writing
nothing) only when the target's parent directory is missing; when the
parent directory exists, append-mode `open` creates the target file and the
fragment is written there between the marker lines, and no directory is
ever created. -/
theorem inject_missing_target_behavior (fs : FileSys) (target : String)
    (frag : List String) (hmiss : fsLookup fs.files target = none) :
    (fs.dirs.contains (parentDir target) = false →
        inject_to_file fs target frag = none)
    ∧ (fs.dirs.contains (parentDir target) = true →
        ∃ fs2, inject_to_file fs target frag = some fs2
          ∧ fsLookup fs2.files target
              = some (injStartMarker ++ "\n"
                  ++ String.join
                      ((frag.filter (fun l => !pyStartsWith "#" l && !l.isEmpty)).map
                        (fun l => l ++ "\n"))
                  ++ injEndMarker ++ "\n")
          ∧ fs2.dirs = fs.dirs) := by
  constructor
  · intro hdir
    unfold inject_to_file
    rw [hmiss, hdir]
    rfl
  · intro hdir
    unfold inject_to_file
    rw [hmiss, hdir]
    refine ⟨_, rfl, ?_, rfl⟩
    rw [fsLookup_write]
    rw [show (none : Option String).getD "" = "" from rfl, String.empty_append]

/-- Witness for the amended claim C2: a missing parent directory makes the
injection fail. -/
theorem inject_missing_target_behavior_witness :
    inject_to_file ⟨[], ["/d"]⟩ "/a/t" ["x"] = none :=
  (inject_missing_target_behavior ⟨[], ["/d"]⟩ "/a/t" ["x"] rfl).1 (by decide)

/-- Claim C3: parsing a well-formed manifest with one `INSTALL=` directive,
one `GIT_URL=` directive and three module rows returns a configuration
holding exactly those three modules in manifest order, with an empty status
message. -/
theorem parse_three_modules_ok :
    presultModuleNames (parse_install_config manifest3 ctxW [] [])
        = some ["MOD_A", "MOD_B", "MOD_C"]
    ∧ presultMsg (parse_install_config manifest3 ctxW [] []) = some "" := by
  refine ⟨rfl, rfl⟩

/-- Claim C4 counterexample: a module row with five fields makes parsing
end in an uncaught `IndexError` — an untagged crash — not in a tagged
`ManifestMalformed` failure naming the line and line number. -/
theorem short_row_untagged_cex :
    parse_install_config manifestShortRow ctxW [] [] = PResult.indexError
    ∧ isTaggedFailure (parse_install_config manifestShortRow ctxW [] []) = false := by
  refine ⟨rfl, rfl⟩

/-- Claim C4 as amended: a non-comment, non-directive module row of
stripped length greater than one with fewer than six whitespace-normalized
fields makes the line loop raise an uncaught `IndexError` (an untagged
failure carrying neither the line nor its number). -/
theorem short_row_index_error (ctx : ParseCtx) (st : ParseState) (raw : String)
    (h1 : pyStartsWith "#" (pyStripS raw) = false)
    (h2 : 1 < (pyStripS raw).length)
    (h3 : pyStartsWith "INSTALL=" (pyStripS raw) = false)
    (h4 : pyStartsWith "GIT_URL" (pyStripS raw) = false)
    (h5 : pyStartsWith "WGET_URL" (pyStripS raw) = false)
    (h6 : (splitOnChar ' ' (collapseSpaces (replaceTabs (pyStripS raw).data))).length < 6) :
    parseStep ctx (.ok st) raw = .error .indexError := by
  simp only [parseStep]
  rw [if_pos (And.intro h1 h2)]
  rw [h3]
  simp only [Bool.false_eq_true, if_false]
  rw [h4, h5]
  simp only [Bool.or_self, Bool.false_eq_true, if_false]
  rw [parse_row_short (pyStripS raw) st.current_url st.current_url_type h6]

/-- Witness for the amended claim C4 at the concrete five-field row
`A B C D E`. -/
theorem short_row_index_error_witness :
    parseStep ctxW (.ok ⟨none, "", "", ""⟩) "A B C D E" = .error .indexError :=
  short_row_index_error ctxW ⟨none, "", "", ""⟩ "A B C D E" (by decide) (by decide)
    (by decide) (by decide) (by decide) (by decide)

/-- Claim C5 counterexample: the raw path `$(SUPPORT)/x` contains a macro
reference naming no known module (the module list is empty), yet path
resolution returns Python `None` — not the input path unchanged. -/
theorem unknown_macro_returns_none_cex :
    expand_module_path "$(SUPPORT)/x" [] "/epics/test" = none
    ∧ expand_module_path "$(SUPPORT)/x" [] "/epics/test" ≠ some "$(SUPPORT)/x" := by
  refine ⟨rfl, by decide⟩

/-- Claim C5 as amended: a raw path whose macro reference is none of
`$(INSTALL)`, `$(SUPPORT)`, `$(AREA_DETECTOR)` is returned unchanged as
literal text (only these three are recognized); but a path containing
`$(SUPPORT)` (resp. `$(AREA_DETECTOR)`) when no module of that name is
known makes resolution return Python `None` instead of the literal path. -/
theorem expand_unknown_macro_behavior :
    (∀ path mods dir, pyIn "$(INSTALL)" path = false → pyIn "$(SUPPORT)" path = false →
        pyIn "$(AREA_DETECTOR)" path = false →
        expand_module_path path mods dir = some path)
    ∧ (∀ path mods dir, pyIn "$(INSTALL)" path = false → pyIn "$(SUPPORT)" path = true →
        lookupFirst "SUPPORT" mods = none →
        expand_module_path path mods dir = none)
    ∧ (∀ path mods dir, pyIn "$(INSTALL)" path = false → pyIn "$(SUPPORT)" path = false →
        pyIn "$(AREA_DETECTOR)" path = true →
        lookupFirst "AREA_DETECTOR" mods = none →
        expand_module_path path mods dir = none) := by
  refine ⟨?_, ?_, ?_⟩
  · intro path mods dir hi hs ha
    unfold expand_module_path
    rw [hi, hs, ha]
    rfl
  · intro path mods dir hi hs hl
    unfold expand_module_path
    rw [hi, hs, hl]
    rfl
  · intro path mods dir hi hs ha hl
    unfold expand_module_path
    rw [hi, hs, ha, hl]
    rfl

/-- Witness for the amended claim C5: `$(FOO)` is unrecognized and the path
comes back unchanged. -/
theorem expand_unknown_macro_behavior_witness :
    expand_module_path "$(FOO)/x" [] "/epics/test" = some "$(FOO)/x" :=
  expand_unknown_macro_behavior.1 "$(FOO)/x" [] "/epics/test" (by decide) (by decide)
    (by decide)

/-- Claim C6 counterexample: the macro-file token `A=B=C` contains `=` and
does not start with `#`, but the code splits it on every `=` into the
three-element list `["A", "B", "C"]` — not into the single pair
`("A", "B=C")` split on the first `=` only; a value therefore cannot
contain `=` characters. -/
theorem macro_token_multi_eq_cex :
    parse_macro_file "A=B=C" = [["A", "B", "C"]]
    ∧ parse_macro_file "A=B=C" ≠ claimMacroPairs "A=B=C"
    ∧ claimMacroPairs "A=B=C" = [["A", "B=C"]] := by
  refine ⟨rfl, by decide, rfl⟩

/-- Claim C6 as amended: a qualifying token (not starting with `#`, longer
than one character, containing `=`) is split on every `=`; when each
qualifying token contains exactly one `=`, this coincides with the claimed
split on the first `=`, so the claim holds exactly for macro files whose
qualifying tokens have a single `=` — and tokens with several `=` refute
it, as does the one-character token `=` which the code skips. -/
theorem macro_file_single_eq_split (content : String)
    (h : ∀ t ∈ pySplitWhite content, pyStartsWith "#" t = false → pyIn "=" t = true →
        ((t.data.filter (fun c => c == '=')).length = 1 ∧ 1 < t.length)) :
    parse_macro_file content = claimMacroPairs content := by
  unfold parse_macro_file claimMacroPairs
  exact macroTokens_eq (pySplitWhite content) h

/-- Witness for the amended claim C6 on a macro file whose tokens each
contain one `=`. -/
theorem macro_file_single_eq_split_witness :
    parse_macro_file "A=1 B=2" = claimMacroPairs "A=1 B=2" :=
  macro_file_single_eq_split "A=1 B=2" (by decide)

/-- Claim C7 counterexample: the original comment line `" # x"` (leading
space) is rewritten as its stripped form `"# x"`, not written unchanged as
the claim states; every line is stripped before being re-emitted. -/
theorem comment_line_stripped_cex :
    (updateFile [" # x"] []).1 = ["# x"]
    ∧ (updateFile [" # x"] []).1 ≠ [" # x"] := by
  refine ⟨rfl, by decide⟩

/-- Claim C7 as amended: the rewritten file is exactly — for each original
line, taken after stripping leading and trailing whitespace: one
`key=value` line for every not-yet-consumed macro pair whose key followed
by `=` occurs as a substring of the stripped line (each such pair becomes
consumed; several matching pairs each produce a line); if no pair matched,
a non-comment stripped line is written prefixed with `#` and a comment
stripped line is written in stripped form; after all original lines, one
`key=value` line is appended for every pair left unconsumed. -/
theorem update_file_rewrite_description (lines : List String) (ms : List MacroPair) :
    updateFile lines ms = claimRewriteFile lines ms := by
  unfold updateFile claimRewriteFile
  rw [processLines_eq]

/-- Claim C8: a macro pair consumed while rewriting one file stays consumed
for all files processed afterwards in the same `update_macros` call — the
outputs of all files are as if the pair were absent (never substituted,
never appended), and the pair is still present and marked consumed, at its
position, in the macro list the call hands back to the caller. -/
theorem update_macros_consumed_persists (files : List (List String))
    (pre post : List MacroPair) (m : MacroPair) (hm : m.done = true) :
    (update_macros files (pre ++ m :: post)).1 = (update_macros files (pre ++ post)).1
    ∧ (update_macros files (pre ++ m :: post)).2
        = pre.map (markFiles files) ++ m :: post.map (markFiles files) := by
  constructor
  · exact update_macros_outs_skip m hm files pre post
  · rw [update_macros_state]
    simp [markFiles_done files m hm]

/-- Witness for claim C8: the already-consumed pair `K=V` is invisible to a
later file and survives, still consumed, in the returned list. -/
theorem update_macros_consumed_persists_witness :
    (update_macros [["A=1"]] ([] ++ (⟨"K", "V", true⟩ : MacroPair) :: [⟨"A", "2", false⟩])).1
        = (update_macros [["A=1"]] ([] ++ [(⟨"A", "2", false⟩ : MacroPair)])).1
    ∧ (update_macros [["A=1"]] ([] ++ (⟨"K", "V", true⟩ : MacroPair) :: [⟨"A", "2", false⟩])).2
        = ([] : List MacroPair).map (markFiles [["A=1"]])
            ++ (⟨"K", "V", true⟩ : MacroPair)
              :: ([⟨"A", "2", false⟩] : List MacroPair).map (markFiles [["A=1"]]) :=
  update_macros_consumed_persists [["A=1"]] [] [⟨"A", "2", false⟩] ⟨"K", "V", true⟩ rfl

/-- Claim C9 counterexample: the line `X` is neither blank nor a comment,
yet the parser silently ignores it — the result is identical to parsing
the manifest without that line, and no module row processing (which would
raise `IndexError` on the single field) takes place, because the loop
requires stripped length strictly greater than one. -/
theorem length_one_line_skipped_cex :
    parse_install_config ["INSTALL=/epics/test", "X"] ctxW [] []
        = parse_install_config ["INSTALL=/epics/test"] ctxW [] []
    ∧ parse_install_config ["INSTALL=/epics/test", "X"] ctxW [] []
        = PResult.done (some (initConfig "/epics/test")) "" := by
  refine ⟨rfl, rfl⟩

/-- Claim C9 as amended: while streaming the manifest the parser skips
exactly the lines whose stripped form has length at most one (blank lines
and one-character lines alike) and the lines whose first non-space
character is `#`; such a line leaves the loop state untouched and appending
it to a manifest does not change the parse result. -/
theorem parse_skip_condition (raw : String)
    (h : (pyStripS raw).length ≤ 1 ∨ pyStartsWith "#" (pyStripS raw) = true) :
    (∀ ctx s, parseStep ctx s raw = s)
    ∧ ∀ lines ctx injFiles macFiles,
        parse_install_config (lines ++ [raw]) ctx injFiles macFiles
          = parse_install_config lines ctx injFiles macFiles := by
  constructor
  · intro ctx s
    exact parseStep_skip ctx s raw h
  · intro lines ctx injFiles macFiles
    unfold parse_install_config
    rw [List.foldl_append]
    simp only [List.foldl_cons, List.foldl_nil]
    rw [parseStep_skip ctx _ raw h]

/-- Witness for the amended claim C9 at the one-character line `X`. -/
theorem parse_skip_condition_witness :
    parse_install_config (["INSTALL=/epics/test", "GIT_URL=u"] ++ ["X"]) ctxW [] []
        = parse_install_config ["INSTALL=/epics/test", "GIT_URL=u"] ctxW [] [] :=
  (parse_skip_condition "X" (Or.inl (by decide))).2 ["INSTALL=/epics/test", "GIT_URL=u"]
    ctxW [] []

/-- Claim C10: `get_injector_files` returns normally exactly when every
regular file in `configure/injectionFiles` bears one of the four predefined
names; any other name makes the unguarded dictionary lookup raise
`KeyError` instead of skipping the file. -/
theorem get_injector_files_known_names (p : String) (files : List String) :
    (∃ l, get_injector_files p files = .ok l)
      ↔ ∀ f ∈ files, f = "AD_RELEASE_CONFIG" ∨ f = "AUTOSAVE_CONFIG"
          ∨ f = "MAKEFILE_CONFIG" ∨ f = "PLUGIN_CONFIG" := by
  induction files with
  | nil => simp [get_injector_files]
  | cons f rest ih =>
    cases hf : injector_file_links f with
    | none =>
      have hnf := (links_none_iff f).mp hf
      simp only [get_injector_files, hf]
      constructor
      · rintro ⟨l, hl⟩
        cases hl
      · intro hall
        exact absurd (hall f (List.mem_cons_self f rest)) hnf
    | some v =>
      have hvf : f = "AD_RELEASE_CONFIG" ∨ f = "AUTOSAVE_CONFIG"
          ∨ f = "MAKEFILE_CONFIG" ∨ f = "PLUGIN_CONFIG" := by
        by_contra hc
        rw [(links_none_iff f).mpr hc] at hf
        cases hf
      simp only [get_injector_files, hf]
      cases hr : get_injector_files p rest with
      | error e =>
        constructor
        · rintro ⟨l, hl⟩
          cases hl
        · intro hall
          rcases ih.mpr (fun g hg => hall g (List.mem_cons_of_mem f hg)) with ⟨l, hl⟩
          rw [hr] at hl
          cases hl
      | ok l =>
        constructor
        · intro _ g hg
          rcases List.mem_cons.mp hg with hg | hg
          · rw [hg]
            exact hvf
          · exact ih.mp ⟨l, hr⟩ g hg
        · intro _
          exact ⟨_, rfl⟩
